import Mathlib

/-!
Shallow embedding of the navipod example scripts
(`src/examples/rdf_nt_query.py`, `src/examples/rdf_ttl_query.py`,
`src/examples/rdf_ttl_query_scr.py`, and the second `rdf_ttl_query_scr.py`
listing described by the specification) together with the semantics of the
hardcoded SPARQL queries they run through the rdflib `Graph` API.

Each script parses an RDF file from a hardcoded path, runs a fixed SPARQL
SELECT query, and prints the first bound variable of every result row.
The embedding models:
  * RDF triples and in-memory graphs (a parsed `Graph` is a set of triples;
    we carry it as a list of triples),
  * the three query shapes appearing in the sources (appname/metric join
    with a case-insensitive `regex(str(?metric), "jvm", "i")` filter, with
    and without `DISTINCT`, and the `DISTINCT` appname-only query),
  * script execution as an effect trace (file read, lines printed) with the
    library-level failure outcomes (missing file, malformed RDF, invalid
    SPARQL) propagating unhandled, exactly as the straight-line Python does.
-/

set_option autoImplicit false

namespace Navipod

/-- An RDF triple as stored in a parsed rdflib `Graph`: subject and
predicate are IRIs, the object here is always a literal; we model each by
its string form (`str(...)` of the term). -/
structure Triple where
  subj : String
  pred : String
  obj : String
deriving DecidableEq

/-- The in-memory graph produced by `g.parse(...)`: a finite collection of
triples. rdflib graphs are sets; we carry the triples as a list whose
order is unspecified. -/
abbrev RDFGraph := List Triple

/-- Predicate IRI `k8p_appname` from `rdf_nt_query.py`. -/
def k8p_appname : String := "http://k8p.navicore.tech/property/k8p_appname"

/-- Predicate IRI `k8p_metric_name` from `rdf_nt_query.py`. -/
def k8p_metric_name : String := "http://k8p.navicore.tech/property/k8p_metric_name"

/-- Predicate IRI `navipod_appname` from the two ttl scripts. -/
def navipod_appname : String := "http://navipod.navicore.tech/property/navipod_appname"

/-- Predicate IRI `navipod_metric_name` from `rdf_ttl_query.py`. -/
def navipod_metric_name : String := "http://navipod.navicore.tech/property/navipod_metric_name"

/-- `leadsWith pat cs` is true when `pat` occurs at the front of `cs`. -/
def leadsWith : List Char → List Char → Bool
  | [], _ => true
  | _ :: _, [] => false
  | p :: ps, c :: cs => p == c && leadsWith ps cs

/-- `hasSub pat cs` is true when `pat` occurs contiguously anywhere in
`cs`: the (anchor-free) matching semantics of SPARQL `regex` for a plain
pattern such as `"jvm"`. -/
def hasSub (pat : List Char) : List Char → Bool
  | [] => leadsWith pat []
  | c :: cs => leadsWith pat (c :: cs) || hasSub pat cs

/-- `FILTER regex(str(?metric), "jvm", "i")`: the flag `"i"` makes the
match case-insensitive, and a plain pattern matches anywhere in the
string, so the filter holds iff the lower-cased string contains `jvm`. -/
def jvmRegexCI (s : String) : Bool :=
  hasSub (String.toList "jvm") (s.toList.map Char.toLower)

/-- Result deduplication performed by `SELECT DISTINCT`: every value of
the input is kept exactly once (the retained order is irrelevant to the
scripts, which impose no `ORDER BY`). -/
def distinct {α : Type} [DecidableEq α] : List α → List α
  | [] => []
  | x :: xs => if x ∈ distinct xs then distinct xs else x :: distinct xs

/-- `concatMap f l` concatenates `f` over `l`; used to enumerate the rows
of the basic graph pattern join. -/
def concatMap {α β : Type} (f : α → List β) : List α → List β
  | [] => []
  | x :: xs => f x ++ concatMap f xs

/-- One candidate row of the two-pattern queries: triples `t1` and `t2`
instantiate `?s <appP> ?appname` and `?s <metP> ?metric` (same subject),
subject to the jvm regex filter on `?metric`; a match binds `?appname` to
the object of `t1`. -/
def rowStep (appP metP : String) (t1 t2 : Triple) : Option String :=
  if t1.pred = appP ∧ t2.pred = metP ∧ t2.subj = t1.subj ∧ jvmRegexCI t2.obj = true
  then some t1.obj else none

/-- All `?appname` bindings of the join
`?s <appP> ?appname . ?s <metP> ?metric . FILTER regex(str(?metric), "jvm", "i")`,
one per matching pair of triples, with the graph supplied once per pattern. -/
def joinRows (appP metP : String) (g1 g2 : List Triple) : List String :=
  concatMap (fun t1 => g2.filterMap (rowStep appP metP t1)) g1

/-- One candidate row of the single-pattern `scr` query:
`?s <appP> ?appname` binds `?appname` to the object of any triple whose
predicate is `appP`. -/
def appnameStep (appP : String) (t : Triple) : Option String :=
  if t.pred = appP then some t.obj else none

/-- `?appname` values of the query of `rdf_nt_query.py`
(`SELECT DISTINCT`, k8p predicates, jvm filter). -/
def ntVals (g : RDFGraph) : List String :=
  distinct (joinRows k8p_appname k8p_metric_name g g)

/-- `?appname` values of the query of `rdf_ttl_query.py`
(`SELECT` without `DISTINCT`, navipod predicates, jvm filter). -/
def ttlVals (g : RDFGraph) : List String :=
  joinRows navipod_appname navipod_metric_name g g

/-- `?appname` values of the query of `rdf_ttl_query_scr.py`
(`SELECT DISTINCT`, single navipod_appname pattern, no filter). -/
def scrVals (g : RDFGraph) : List String :=
  distinct (g.filterMap (appnameStep navipod_appname))

/-- Modelled from the spec: the query of the second `rdf_ttl_query_scr.py`
listing (absent from `src/`), the scr-style `SELECT DISTINCT ?appname`
over the `k8p_appname` predicate IRI named in the specification. -/
def scrK8pVals (g : RDFGraph) : List String :=
  distinct (g.filterMap (appnameStep k8p_appname))

/-- A result row as returned by `g.query(...)`: the bound values of the
selected variables in SELECT order (all four queries select the single
variable `?appname`). -/
abbrev Row := List String

/-- Result rows of `rdf_nt_query.py`. -/
def ntQueryRows (g : RDFGraph) : List Row := (ntVals g).map (fun v => [v])

/-- Result rows of `rdf_ttl_query.py`. -/
def ttlQueryRows (g : RDFGraph) : List Row := (ttlVals g).map (fun v => [v])

/-- Result rows of `rdf_ttl_query_scr.py`. -/
def scrQueryRows (g : RDFGraph) : List Row := (scrVals g).map (fun v => [v])

/-- Modelled from the spec: result rows of the second
`rdf_ttl_query_scr.py` listing. -/
def scrK8pQueryRows (g : RDFGraph) : List Row := (scrK8pVals g).map (fun v => [v])

/-- The serialization format passed to `g.parse(..., format=...)`. -/
inductive RDFFormat where
  | nt
  | ttl
deriving DecidableEq

/-- One script: the hardcoded input path, the format declared at the same
`g.parse` call site, and the row set of its hardcoded query. -/
structure Script where
  path : String
  fmt : RDFFormat
  rows : RDFGraph → List Row

/-- `src/examples/rdf_nt_query.py`: parses `k8p.nt` as N-Triples. -/
def rdf_nt_query : Script := ⟨"k8p.nt", RDFFormat.nt, ntQueryRows⟩

/-- `src/examples/rdf_ttl_query.py`: parses `navipod.ttl` as Turtle. -/
def rdf_ttl_query : Script := ⟨"navipod.ttl", RDFFormat.ttl, ttlQueryRows⟩

/-- `src/examples/rdf_ttl_query_scr.py`: parses `navipod.ttl` as Turtle. -/
def rdf_ttl_query_scr : Script := ⟨"navipod.ttl", RDFFormat.ttl, scrQueryRows⟩

/-- Modelled from the spec: the second `rdf_ttl_query_scr.py` listing,
which parses `k8p.ttl` as Turtle and queries the k8p predicate; its code
is not under `src/`, so path, format and query shape follow the
specification's words. -/
def rdf_ttl_query_scr_k8p : Script := ⟨"k8p.ttl", RDFFormat.ttl, scrK8pQueryRows⟩

/-- The scripts of the repository. -/
def scripts : List Script :=
  [rdf_nt_query, rdf_ttl_query, rdf_ttl_query_scr, rdf_ttl_query_scr_k8p]

/-- Outcome of the `g.parse(path, format=...)` call: the file may be
missing, its content may fail to parse in the declared format, or a graph
is produced. -/
inductive ParseOutcome where
  | fileMissing
  | malformed
  | parsed (g : RDFGraph)

/-- Outcome of handing the query string to the library: rejected as
syntactically invalid SPARQL, or accepted. -/
inductive QueryOutcome where
  | invalidQuery
  | validQuery
deriving DecidableEq

/-- The library-raised exceptions a script can die of. -/
inductive LibError where
  | fileNotFound
  | rdfParseError
  | sparqlSyntaxError
deriving DecidableEq

/-- How a script run ends: fell off the end normally, or was terminated by
an unhandled library exception (the scripts contain no try/except). -/
inductive ScriptResult where
  | finished
  | uncaught (e : LibError)
deriving DecidableEq

/-- Externally observable effects of a run: the input file read performed
by `g.parse`, a line written to standard output by `print`, and — for the
frame property — the write/environment effects the scripts never perform. -/
inductive Effect where
  | readFile (path : String)
  | writeFile (path : String) (content : String)
  | printLine (s : String)
  | readEnv (name : String)
deriving DecidableEq

/-- `print(result[0])` for one result row: rdflib row indexing returns the
first bound variable. -/
def printedLine (r : Row) : String := r.headD ""

/-- Run a script: parse (aborting unhandled on a missing or malformed
file), submit the query (aborting unhandled if the library rejects it),
then print the first bound variable of each row. Returns the effect trace
and the way the run ended. -/
def runScript (sc : Script) (pr : ParseOutcome) (q : QueryOutcome) :
    List Effect × ScriptResult :=
  match pr with
  | ParseOutcome.fileMissing => ([Effect.readFile sc.path], ScriptResult.uncaught LibError.fileNotFound)
  | ParseOutcome.malformed => ([Effect.readFile sc.path], ScriptResult.uncaught LibError.rdfParseError)
  | ParseOutcome.parsed g =>
    match q with
    | QueryOutcome.invalidQuery =>
        ([Effect.readFile sc.path], ScriptResult.uncaught LibError.sparqlSyntaxError)
    | QueryOutcome.validQuery =>
        (Effect.readFile sc.path :: (sc.rows g).map (fun r => Effect.printLine (printedLine r)),
         ScriptResult.finished)

/-- The lines a script prints on a successfully parsed graph, in order. -/
def scriptLines (sc : Script) (g : RDFGraph) : List String :=
  (sc.rows g).map printedLine

/-! ### Lemmas about the query building blocks -/

lemma mem_distinct {α : Type} [DecidableEq α] (l : List α) :
    ∀ a : α, a ∈ distinct l ↔ a ∈ l := by
  induction l with
  | nil => intro a; simp [distinct]
  | cons x xs ih =>
    intro a
    simp only [distinct]
    split
    · rename_i hx
      simp only [List.mem_cons, ih a]
      constructor
      · exact fun h => Or.inr h
      · rintro (rfl | h)
        · exact (ih a).mp hx
        · exact h
    · simp [List.mem_cons, ih a]

lemma nodup_distinct {α : Type} [DecidableEq α] (l : List α) : (distinct l).Nodup := by
  induction l with
  | nil => simp [distinct]
  | cons x xs ih =>
    simp only [distinct]
    split
    · exact ih
    · rename_i hx
      exact List.nodup_cons.mpr ⟨hx, ih⟩

lemma distinct_eq_singleton {α : Type} [DecidableEq α] (v : α) (l : List α)
    (hne : l ≠ []) (hall : ∀ a ∈ l, a = v) : distinct l = [v] := by
  induction l with
  | nil => exact absurd rfl hne
  | cons x xs ih =>
    have hx : x = v := hall x (List.mem_cons_self x xs)
    by_cases hxs : xs = []
    · subst hxs; subst hx; simp [distinct]
    · have hd := ih hxs (fun a ha => hall a (List.mem_cons_of_mem x ha))
      simp only [distinct, hd]
      subst hx
      simp

lemma mem_concatMap {α β : Type} (f : α → List β) (b : β) (l : List α) :
    b ∈ concatMap f l ↔ ∃ a, a ∈ l ∧ b ∈ f a := by
  induction l with
  | nil => simp [concatMap]
  | cons x xs ih => simp [concatMap, List.mem_append, ih]

lemma rowStep_eq_some (appP metP v : String) (t1 t2 : Triple) :
    rowStep appP metP t1 t2 = some v ↔
      t1.pred = appP ∧ t2.pred = metP ∧ t2.subj = t1.subj ∧
        jvmRegexCI t2.obj = true ∧ v = t1.obj := by
  unfold rowStep
  split
  · rename_i h
    constructor
    · intro hv
      exact ⟨h.1, h.2.1, h.2.2.1, h.2.2.2, (Option.some.inj hv).symm⟩
    · intro hv
      exact congrArg some hv.2.2.2.2.symm
  · rename_i h
    constructor
    · intro hv; cases hv
    · intro hv; exact absurd ⟨hv.1, hv.2.1, hv.2.2.1, hv.2.2.2.1⟩ h

lemma appnameStep_eq_some (appP v : String) (t : Triple) :
    appnameStep appP t = some v ↔ t.pred = appP ∧ v = t.obj := by
  unfold appnameStep
  split
  · rename_i h
    constructor
    · intro hv; exact ⟨h, (Option.some.inj hv).symm⟩
    · intro hv; exact congrArg some hv.2.symm
  · rename_i h
    constructor
    · intro hv; cases hv
    · intro hv; exact absurd hv.1 h

lemma mem_joinRows (appP metP v : String) (g1 g2 : List Triple) :
    v ∈ joinRows appP metP g1 g2 ↔
      ∃ t1, t1 ∈ g1 ∧ ∃ t2, t2 ∈ g2 ∧ t1.pred = appP ∧ t2.pred = metP ∧
        t2.subj = t1.subj ∧ jvmRegexCI t2.obj = true ∧ v = t1.obj := by
  unfold joinRows
  rw [mem_concatMap]
  constructor
  · rintro ⟨t1, h1, hmem⟩
    rcases List.mem_filterMap.mp hmem with ⟨t2, h2, hstep⟩
    rcases (rowStep_eq_some appP metP v t1 t2).mp hstep with ⟨hp1, hp2, hs, hj, hv⟩
    exact ⟨t1, h1, t2, h2, hp1, hp2, hs, hj, hv⟩
  · rintro ⟨t1, h1, t2, h2, hp1, hp2, hs, hj, hv⟩
    exact ⟨t1, h1, List.mem_filterMap.mpr
      ⟨t2, h2, (rowStep_eq_some appP metP v t1 t2).mpr ⟨hp1, hp2, hs, hj, hv⟩⟩⟩

lemma mem_appnameVals (appP v : String) (g : List Triple) :
    v ∈ g.filterMap (appnameStep appP) ↔ ∃ t, t ∈ g ∧ t.pred = appP ∧ v = t.obj := by
  rw [List.mem_filterMap]
  constructor
  · rintro ⟨t, ht, hstep⟩
    rcases (appnameStep_eq_some appP v t).mp hstep with ⟨h1, h2⟩
    exact ⟨t, ht, h1, h2⟩
  · rintro ⟨t, ht, h1, h2⟩
    exact ⟨t, ht, (appnameStep_eq_some appP v t).mpr ⟨h1, h2⟩⟩

lemma map_printedLine_singleton (l : List String) :
    (l.map (fun v => [v])).map printedLine = l := by
  induction l with
  | nil => rfl
  | cons x xs ih => simp [printedLine, ih]

lemma scriptLines_nt (g : RDFGraph) : scriptLines rdf_nt_query g = ntVals g :=
  map_printedLine_singleton (ntVals g)

lemma scriptLines_ttl (g : RDFGraph) : scriptLines rdf_ttl_query g = ttlVals g :=
  map_printedLine_singleton (ttlVals g)

lemma scriptLines_scr (g : RDFGraph) : scriptLines rdf_ttl_query_scr g = scrVals g :=
  map_printedLine_singleton (scrVals g)

lemma scriptLines_scrK8p (g : RDFGraph) :
    scriptLines rdf_ttl_query_scr_k8p g = scrK8pVals g :=
  map_printedLine_singleton (scrK8pVals g)

/-- Recognizer for standard-output effects. -/
def isPrint : Effect → Bool
  | Effect.printLine _ => true
  | _ => false

/-- The effects a script is allowed to perform: reading its hardcoded
input path and writing lines to standard output. -/
def effectAllowed (path : String) : Effect → Bool
  | Effect.readFile p => p == path
  | Effect.printLine _ => true
  | Effect.writeFile _ _ => false
  | Effect.readEnv _ => false

lemma rowStep_eq_none_left (appP metP : String) (t1 t2 : Triple) (h : t1.pred ≠ appP) :
    rowStep appP metP t1 t2 = none := by
  unfold rowStep
  exact if_neg (fun hc => h hc.1)

lemma appnameStep_eq_none (appP : String) (t : Triple) (h : t.pred ≠ appP) :
    appnameStep appP t = none := by
  unfold appnameStep
  exact if_neg h

lemma concatMap_eq_nil {α β : Type} (f : α → List β) (l : List α)
    (h : ∀ a ∈ l, f a = []) : concatMap f l = [] := by
  induction l with
  | nil => rfl
  | cons x xs ih =>
    simp only [concatMap, h x (List.mem_cons_self x xs), List.nil_append]
    exact ih (fun a ha => h a (List.mem_cons_of_mem x ha))

/-! ### Claims -/

/-- C3: every script loads its input from a path hardcoded in its source,
and the hardcoded (path, declared format) pairs across the scripts are
exactly `k8p.nt` parsed as N-Triples, `navipod.ttl` parsed as Turtle, and
`k8p.ttl` parsed as Turtle. -/
theorem claim_C3 :
    distinct (scripts.map (fun sc => (sc.path, sc.fmt))) =
      [("k8p.nt", RDFFormat.nt), ("navipod.ttl", RDFFormat.ttl),
        ("k8p.ttl", RDFFormat.ttl)] := by
  decide

/-- C4: on every failing input — missing file, RDF text that does not
parse in the declared format, or a query string the library rejects —
every script ends with the library exception uncaught (it catches,
retries and reports nothing) and prints no output. -/
theorem claim_C4 (sc : Script) (pr : ParseOutcome) (q : QueryOutcome)
    (hfail : pr = ParseOutcome.fileMissing ∨ pr = ParseOutcome.malformed ∨
      q = QueryOutcome.invalidQuery) :
    (∃ e, (runScript sc pr q).2 = ScriptResult.uncaught e) ∧
      (runScript sc pr q).1.all (fun ef => !isPrint ef) = true := by
  cases pr with
  | fileMissing => exact ⟨⟨LibError.fileNotFound, rfl⟩, rfl⟩
  | malformed => exact ⟨⟨LibError.rdfParseError, rfl⟩, rfl⟩
  | parsed g =>
    rcases hfail with h | h | h
    · cases h
    · cases h
    · subst h
      exact ⟨⟨LibError.sparqlSyntaxError, rfl⟩, rfl⟩

/-- Witness for C4: `rdf_nt_query.py` with `k8p.nt` absent dies of the
uncaught file-not-found error and prints nothing. -/
theorem claim_C4_witness :
    (∃ e, (runScript rdf_nt_query ParseOutcome.fileMissing QueryOutcome.validQuery).2 =
        ScriptResult.uncaught e) ∧
      (runScript rdf_nt_query ParseOutcome.fileMissing QueryOutcome.validQuery).1.all
        (fun ef => !isPrint ef) = true :=
  claim_C4 rdf_nt_query ParseOutcome.fileMissing QueryOutcome.validQuery (Or.inl rfl)

/-- C6: on every successfully parsed graph, every script writes exactly
one line per result row — that row's first bound variable — with no
header, summary or other framing, and then finishes normally. -/
theorem claim_C6 (sc : Script) (g : RDFGraph) :
    ((runScript sc (ParseOutcome.parsed g) QueryOutcome.validQuery).1.filter isPrint =
        (scriptLines sc g).map Effect.printLine) ∧
      ((runScript sc (ParseOutcome.parsed g) QueryOutcome.validQuery).1.filter
          (fun e => !isPrint e) = [Effect.readFile sc.path]) ∧
      (runScript sc (ParseOutcome.parsed g) QueryOutcome.validQuery).2 =
        ScriptResult.finished := by
  refine ⟨?_, ?_, rfl⟩
  · show (Effect.readFile sc.path ::
        (sc.rows g).map (fun r => Effect.printLine (printedLine r))).filter isPrint =
      ((sc.rows g).map printedLine).map Effect.printLine
    induction sc.rows g with
    | nil => rfl
    | cons r rs ih => simpa [isPrint, List.filter_cons] using ih
  · show (Effect.readFile sc.path ::
        (sc.rows g).map (fun r => Effect.printLine (printedLine r))).filter
          (fun e => !isPrint e) = [Effect.readFile sc.path]
    induction sc.rows g with
    | nil => rfl
    | cons r rs _ => simp [isPrint, List.filter_cons]

/-- C7: whatever the parse and query outcomes, a script's effect trace
holds only the read of its hardcoded input path and writes to standard
output — no file is created or modified and no environment is read. -/
theorem claim_C7 (sc : Script) (pr : ParseOutcome) (q : QueryOutcome) :
    (runScript sc pr q).1.all (effectAllowed sc.path) = true := by
  cases pr with
  | fileMissing => simp [runScript, effectAllowed]
  | malformed => simp [runScript, effectAllowed]
  | parsed g =>
    cases q with
    | invalidQuery => simp [runScript, effectAllowed]
    | validQuery =>
      simp only [runScript, List.all_cons, effectAllowed, beq_self_eq_true, Bool.true_and]
      induction sc.rows g with
      | nil => rfl
      | cons r rs _ => simp [effectAllowed]

/-- C10: a valid input whose graph holds no appname triple (for any of
the appname predicate IRIs used by the scripts) yields an empty result
set for every script, which prints nothing and terminates normally. -/
theorem claim_C10 (g : RDFGraph)
    (h : ∀ t ∈ g, t.pred ≠ k8p_appname ∧ t.pred ≠ navipod_appname) :
    ∀ sc ∈ scripts, sc.rows g = [] ∧
      runScript sc (ParseOutcome.parsed g) QueryOutcome.validQuery =
        ([Effect.readFile sc.path], ScriptResult.finished) := by
  have hjoin : ∀ appP metP : String, (∀ t ∈ g, t.pred ≠ appP) →
      joinRows appP metP g g = [] := by
    intro appP metP ha
    exact concatMap_eq_nil _ g (fun t1 ht1 =>
      List.filterMap_eq_nil_iff.mpr (fun t2 _ => rowStep_eq_none_left appP metP t1 t2 (ha t1 ht1)))
  have hsel : ∀ appP : String, (∀ t ∈ g, t.pred ≠ appP) →
      g.filterMap (appnameStep appP) = [] := by
    intro appP ha
    exact List.filterMap_eq_nil_iff.mpr (fun t ht => appnameStep_eq_none appP t (ha t ht))
  have hnt : ntVals g = [] := by
    rw [ntVals, hjoin _ _ (fun t ht => (h t ht).1)]; rfl
  have httl : ttlVals g = [] := by
    rw [ttlVals]; exact hjoin _ _ (fun t ht => (h t ht).2)
  have hscr : scrVals g = [] := by
    rw [scrVals, hsel _ (fun t ht => (h t ht).2)]; rfl
  have hk8p : scrK8pVals g = [] := by
    rw [scrK8pVals, hsel _ (fun t ht => (h t ht).1)]; rfl
  intro sc hsc
  simp only [scripts, List.mem_cons, List.not_mem_nil, or_false] at hsc
  rcases hsc with rfl | rfl | rfl | rfl
  · exact ⟨by simp [rdf_nt_query, ntQueryRows, hnt],
      by simp [runScript, rdf_nt_query, ntQueryRows, hnt]⟩
  · exact ⟨by simp [rdf_ttl_query, ttlQueryRows, httl],
      by simp [runScript, rdf_ttl_query, ttlQueryRows, httl]⟩
  · exact ⟨by simp [rdf_ttl_query_scr, scrQueryRows, hscr],
      by simp [runScript, rdf_ttl_query_scr, scrQueryRows, hscr]⟩
  · exact ⟨by simp [rdf_ttl_query_scr_k8p, scrK8pQueryRows, hk8p],
      by simp [runScript, rdf_ttl_query_scr_k8p, scrK8pQueryRows, hk8p]⟩

/-- Witness for C10: on a one-triple graph whose predicate is none of the
appname IRIs, `rdf_nt_query.py` prints nothing and finishes. -/
theorem claim_C10_witness :
    rdf_nt_query.rows [Triple.mk "s" "http://example.org/other" "x"] = [] ∧
      runScript rdf_nt_query
          (ParseOutcome.parsed [Triple.mk "s" "http://example.org/other" "x"])
          QueryOutcome.validQuery =
        ([Effect.readFile rdf_nt_query.path], ScriptResult.finished) :=
  claim_C10 [Triple.mk "s" "http://example.org/other" "x"] (by decide) rdf_nt_query
    (List.mem_cons_self _ _)

/-- C2: a Turtle graph in which two subjects carry `navipod_appname`
values `"a"` and `"b"` — with or without any metric-name triples — makes
`rdf_ttl_query_scr.py` print both values, each exactly once. -/
theorem claim_C2 (g : RDFGraph) (s1 s2 : String) (_hs : s1 ≠ s2)
    (ha : Triple.mk s1 navipod_appname "a" ∈ g)
    (hb : Triple.mk s2 navipod_appname "b" ∈ g) :
    (scriptLines rdf_ttl_query_scr g).count "a" = 1 ∧
      (scriptLines rdf_ttl_query_scr g).count "b" = 1 := by
  rw [scriptLines_scr, scrVals]
  have hnd := nodup_distinct (g.filterMap (appnameStep navipod_appname))
  have hma : "a" ∈ distinct (g.filterMap (appnameStep navipod_appname)) := by
    rw [mem_distinct]
    exact (mem_appnameVals _ _ g).mpr ⟨_, ha, rfl, rfl⟩
  have hmb : "b" ∈ distinct (g.filterMap (appnameStep navipod_appname)) := by
    rw [mem_distinct]
    exact (mem_appnameVals _ _ g).mpr ⟨_, hb, rfl, rfl⟩
  exact ⟨List.count_eq_one_of_mem hnd hma, List.count_eq_one_of_mem hnd hmb⟩

/-- Witness for C2: on the two-triple graph binding `"a"` and `"b"` the
scr script prints each value once. -/
theorem claim_C2_witness :
    (scriptLines rdf_ttl_query_scr
        [Triple.mk "s1" navipod_appname "a", Triple.mk "s2" navipod_appname "b"]).count "a"
      = 1 ∧
      (scriptLines rdf_ttl_query_scr
        [Triple.mk "s1" navipod_appname "a", Triple.mk "s2" navipod_appname "b"]).count "b"
      = 1 :=
  claim_C2 [Triple.mk "s1" navipod_appname "a", Triple.mk "s2" navipod_appname "b"]
    "s1" "s2" (by decide) (by decide) (by decide)

/-- C5: fixed-input determinism modulo result ordering — two parses of
the same valid input that contain the same triples, in whatever order the
library enumerates them, give every script the same set of printed
appname values. -/
theorem claim_C5 (g1 g2 : RDFGraph)
    (h12 : ∀ t ∈ g1, t ∈ g2) (h21 : ∀ t ∈ g2, t ∈ g1) (v : String) :
    (v ∈ scriptLines rdf_nt_query g1 ↔ v ∈ scriptLines rdf_nt_query g2) ∧
      (v ∈ scriptLines rdf_ttl_query g1 ↔ v ∈ scriptLines rdf_ttl_query g2) ∧
      (v ∈ scriptLines rdf_ttl_query_scr g1 ↔ v ∈ scriptLines rdf_ttl_query_scr g2) ∧
      (v ∈ scriptLines rdf_ttl_query_scr_k8p g1 ↔
        v ∈ scriptLines rdf_ttl_query_scr_k8p g2) := by
  have hmem : ∀ t : Triple, t ∈ g1 ↔ t ∈ g2 := fun t => ⟨h12 t, h21 t⟩
  refine ⟨?_, ?_, ?_, ?_⟩
  · rw [scriptLines_nt, scriptLines_nt, ntVals, ntVals, mem_distinct, mem_distinct,
      mem_joinRows, mem_joinRows]
    simp only [hmem]
  · rw [scriptLines_ttl, scriptLines_ttl, ttlVals, ttlVals, mem_joinRows, mem_joinRows]
    simp only [hmem]
  · rw [scriptLines_scr, scriptLines_scr, scrVals, scrVals, mem_distinct, mem_distinct,
      mem_appnameVals, mem_appnameVals]
    simp only [hmem]
  · rw [scriptLines_scrK8p, scriptLines_scrK8p, scrK8pVals, scrK8pVals, mem_distinct,
      mem_distinct, mem_appnameVals, mem_appnameVals]
    simp only [hmem]

/-- Witness for C5: two orderings of the same two-triple graph agree on
whether `"x"` is printed, for all four scripts. -/
theorem claim_C5_witness :
    ("x" ∈ scriptLines rdf_nt_query
          [Triple.mk "s1" navipod_appname "x", Triple.mk "s1" navipod_metric_name "jvm.mem"] ↔
        "x" ∈ scriptLines rdf_nt_query
          [Triple.mk "s1" navipod_metric_name "jvm.mem", Triple.mk "s1" navipod_appname "x"]) ∧
      ("x" ∈ scriptLines rdf_ttl_query
          [Triple.mk "s1" navipod_appname "x", Triple.mk "s1" navipod_metric_name "jvm.mem"] ↔
        "x" ∈ scriptLines rdf_ttl_query
          [Triple.mk "s1" navipod_metric_name "jvm.mem", Triple.mk "s1" navipod_appname "x"]) ∧
      ("x" ∈ scriptLines rdf_ttl_query_scr
          [Triple.mk "s1" navipod_appname "x", Triple.mk "s1" navipod_metric_name "jvm.mem"] ↔
        "x" ∈ scriptLines rdf_ttl_query_scr
          [Triple.mk "s1" navipod_metric_name "jvm.mem", Triple.mk "s1" navipod_appname "x"]) ∧
      ("x" ∈ scriptLines rdf_ttl_query_scr_k8p
          [Triple.mk "s1" navipod_appname "x", Triple.mk "s1" navipod_metric_name "jvm.mem"] ↔
        "x" ∈ scriptLines rdf_ttl_query_scr_k8p
          [Triple.mk "s1" navipod_metric_name "jvm.mem", Triple.mk "s1" navipod_appname "x"]) :=
  claim_C5
    [Triple.mk "s1" navipod_appname "x", Triple.mk "s1" navipod_metric_name "jvm.mem"]
    [Triple.mk "s1" navipod_metric_name "jvm.mem", Triple.mk "s1" navipod_appname "x"]
    (by decide) (by decide) "x"

/-- C1: an N-Triples graph whose only appname/metric triples give one
subject `billing` with metric `jvm.heap.used` and a second subject `auth`
with metric `cpu.load` makes `rdf_nt_query.py` print exactly `billing`
and never `auth`: the case-insensitive jvm regex keeps only the first
subject's join row. -/
theorem claim_C1 (g : RDFGraph) (s1 s2 : String) (hs : s1 ≠ s2)
    (hb : Triple.mk s1 k8p_appname "billing" ∈ g)
    (hbm : Triple.mk s1 k8p_metric_name "jvm.heap.used" ∈ g)
    (_ha : Triple.mk s2 k8p_appname "auth" ∈ g)
    (_ham : Triple.mk s2 k8p_metric_name "cpu.load" ∈ g)
    (hApp : ∀ t ∈ g, t.pred = k8p_appname →
      t = Triple.mk s1 k8p_appname "billing" ∨ t = Triple.mk s2 k8p_appname "auth")
    (hMet : ∀ t ∈ g, t.pred = k8p_metric_name →
      t = Triple.mk s1 k8p_metric_name "jvm.heap.used" ∨
        t = Triple.mk s2 k8p_metric_name "cpu.load") :
    scriptLines rdf_nt_query g = ["billing"] ∧ "auth" ∉ scriptLines rdf_nt_query g := by
  have hall : ∀ w ∈ joinRows k8p_appname k8p_metric_name g g, w = "billing" := by
    intro w hw
    rcases (mem_joinRows _ _ w g g).mp hw with ⟨t1, h1, t2, h2, hp1, hp2, hsubj, hjvm, hv⟩
    rcases hApp t1 h1 hp1 with h | h
    · subst h; exact hv
    · subst h
      rcases hMet t2 h2 hp2 with h2' | h2'
      · subst h2'; exact absurd hsubj hs
      · subst h2'
        exact absurd hjvm (show ¬jvmRegexCI "cpu.load" = true by decide)
  have hbmem : "billing" ∈ joinRows k8p_appname k8p_metric_name g g :=
    (mem_joinRows _ _ _ g g).mpr
      ⟨_, hb, _, hbm, rfl, rfl, rfl, show jvmRegexCI "jvm.heap.used" = true by decide, rfl⟩
  have hvals : ntVals g = ["billing"] := by
    rw [ntVals]
    exact distinct_eq_singleton _ _ (List.ne_nil_of_mem hbmem) hall
  rw [scriptLines_nt, hvals]
  exact ⟨rfl, by decide⟩

/-- Witness for C1: the four-triple graph of the example prints exactly
`billing`. -/
theorem claim_C1_witness :
    scriptLines rdf_nt_query
        [Triple.mk "s1" k8p_appname "billing",
         Triple.mk "s1" k8p_metric_name "jvm.heap.used",
         Triple.mk "s2" k8p_appname "auth",
         Triple.mk "s2" k8p_metric_name "cpu.load"] = ["billing"] ∧
      "auth" ∉ scriptLines rdf_nt_query
        [Triple.mk "s1" k8p_appname "billing",
         Triple.mk "s1" k8p_metric_name "jvm.heap.used",
         Triple.mk "s2" k8p_appname "auth",
         Triple.mk "s2" k8p_metric_name "cpu.load"] :=
  claim_C1
    [Triple.mk "s1" k8p_appname "billing",
     Triple.mk "s1" k8p_metric_name "jvm.heap.used",
     Triple.mk "s2" k8p_appname "auth",
     Triple.mk "s2" k8p_metric_name "cpu.load"]
    "s1" "s2" (by decide) (by decide) (by decide) (by decide) (by decide)
    (by decide) (by decide)

lemma filterMap_rowStep_filter_subj (appP metP s : String) (t1 : Triple)
    (g2 : List Triple)
    (hnomet : ∀ t ∈ g2, t.pred = metP → t.subj ≠ s) :
    (g2.filter (fun t => t.subj != s)).filterMap (rowStep appP metP t1) =
      g2.filterMap (rowStep appP metP t1) := by
  induction g2 with
  | nil => rfl
  | cons t ts ih =>
    have hts := fun u hu => hnomet u (List.mem_cons_of_mem t hu)
    by_cases hst : t.subj = s
    · have hnone : rowStep appP metP t1 t = none := by
        unfold rowStep
        exact if_neg (fun hc => hnomet t (List.mem_cons_self t ts) hc.2.1 hst)
      simp [List.filter_cons, hst, List.filterMap_cons, hnone, ih hts]
    · simp [List.filter_cons, hst, List.filterMap_cons, ih hts]

lemma filterMap_rowStep_subj_nil (appP metP s : String) (t1 : Triple)
    (g2 : List Triple) (ht1 : t1.subj = s)
    (hnomet : ∀ t ∈ g2, t.pred = metP → t.subj ≠ s) :
    g2.filterMap (rowStep appP metP t1) = [] := by
  apply List.filterMap_eq_nil_iff.mpr
  intro t ht
  unfold rowStep
  exact if_neg (fun hc => hnomet t ht hc.2.1 (hc.2.2.1.trans ht1))

lemma joinRows_filter_subj (appP metP s : String) (g : List Triple)
    (hnomet : ∀ t ∈ g, t.pred = metP → t.subj ≠ s) :
    joinRows appP metP (g.filter (fun t => t.subj != s)) (g.filter (fun t => t.subj != s)) =
      joinRows appP metP g g := by
  unfold joinRows
  have hinner :
      (fun t1 => (g.filter (fun t => t.subj != s)).filterMap (rowStep appP metP t1)) =
        (fun t1 => g.filterMap (rowStep appP metP t1)) := by
    funext t1
    exact filterMap_rowStep_filter_subj appP metP s t1 g hnomet
  rw [hinner]
  have houter : ∀ l : List Triple,
      concatMap (fun t1 => g.filterMap (rowStep appP metP t1))
          (l.filter (fun t => t.subj != s)) =
        concatMap (fun t1 => g.filterMap (rowStep appP metP t1)) l := by
    intro l
    induction l with
    | nil => rfl
    | cons t ts ih =>
      by_cases hst : t.subj = s
      · have hnil : g.filterMap (rowStep appP metP t) = [] :=
          filterMap_rowStep_subj_nil appP metP s t g hst hnomet
        simp [List.filter_cons, bne_iff_ne, hst, concatMap, hnil, ih]
      · simp [List.filter_cons, bne_iff_ne, hst, concatMap, ih]
  exact houter g

/-- C9: in the two filtering scripts the metric pattern joins on the same
subject, so a subject with an appname triple but no metric-name triple at
all contributes nothing: deleting every triple of that subject leaves the
printed lines unchanged. -/
theorem claim_C9 (g : RDFGraph) (s v : String)
    (_happ : Triple.mk s k8p_appname v ∈ g ∨ Triple.mk s navipod_appname v ∈ g)
    (hnomet : ∀ t ∈ g,
      (t.pred = k8p_metric_name ∨ t.pred = navipod_metric_name) → t.subj ≠ s) :
    scriptLines rdf_nt_query (g.filter (fun t => t.subj != s)) =
        scriptLines rdf_nt_query g ∧
      scriptLines rdf_ttl_query (g.filter (fun t => t.subj != s)) =
        scriptLines rdf_ttl_query g := by
  constructor
  · rw [scriptLines_nt, scriptLines_nt, ntVals, ntVals,
      joinRows_filter_subj k8p_appname k8p_metric_name s g
        (fun t ht hm => hnomet t ht (Or.inl hm))]
  · rw [scriptLines_ttl, scriptLines_ttl, ttlVals, ttlVals,
      joinRows_filter_subj navipod_appname navipod_metric_name s g
        (fun t ht hm => hnomet t ht (Or.inr hm))]

/-- Witness for C9: a graph whose only triple gives subject `s1` an
appname but no metric leaves both filtering scripts' output unchanged
when `s1` is removed. -/
theorem claim_C9_witness :
    scriptLines rdf_nt_query
          ([Triple.mk "s1" k8p_appname "x"].filter (fun t => t.subj != "s1")) =
        scriptLines rdf_nt_query [Triple.mk "s1" k8p_appname "x"] ∧
      scriptLines rdf_ttl_query
          ([Triple.mk "s1" k8p_appname "x"].filter (fun t => t.subj != "s1")) =
        scriptLines rdf_ttl_query [Triple.mk "s1" k8p_appname "x"] :=
  claim_C9 [Triple.mk "s1" k8p_appname "x"] "s1" "x" (Or.inl (by decide)) (by decide)

lemma count_rowStep_app (s1 s2 v m1 m2 : String) (hs : s1 ≠ s2)
    (hj1 : jvmRegexCI m1 = true) (g2 : List Triple)
    (hMet : ∀ t ∈ g2, t.pred = navipod_metric_name →
      t = Triple.mk s1 navipod_metric_name m1 ∨ t = Triple.mk s2 navipod_metric_name m2) :
    (g2.filterMap (rowStep navipod_appname navipod_metric_name
        (Triple.mk s1 navipod_appname v))).count v =
      g2.count (Triple.mk s1 navipod_metric_name m1) := by
  induction g2 with
  | nil => rfl
  | cons t ts ih =>
    have hts := fun u hu hp => hMet u (List.mem_cons_of_mem t hu) hp
    by_cases hT : t = Triple.mk s1 navipod_metric_name m1
    · subst hT
      have hstep : rowStep navipod_appname navipod_metric_name
          (Triple.mk s1 navipod_appname v) (Triple.mk s1 navipod_metric_name m1) =
            some v := by
        unfold rowStep
        exact if_pos ⟨rfl, rfl, rfl, hj1⟩
      simp only [List.filterMap_cons, hstep]
      rw [List.count_cons_self, List.count_cons_self, ih hts]
    · have hstep : rowStep navipod_appname navipod_metric_name
          (Triple.mk s1 navipod_appname v) t = none := by
        unfold rowStep
        refine if_neg (fun hc => ?_)
        rcases hMet t (List.mem_cons_self t ts) hc.2.1 with h | h
        · exact hT h
        · subst h
          exact hs hc.2.2.1.symm
      simp only [List.filterMap_cons, hstep]
      rw [List.count_cons_of_ne (Ne.symm hT), ih hts]

lemma count_joinRows_two (s1 s2 v m1 m2 : String) (hs : s1 ≠ s2)
    (hj1 : jvmRegexCI m1 = true) (hj2 : jvmRegexCI m2 = true)
    (g2 : List Triple)
    (hMet : ∀ t ∈ g2, t.pred = navipod_metric_name →
      t = Triple.mk s1 navipod_metric_name m1 ∨ t = Triple.mk s2 navipod_metric_name m2) :
    ∀ g1 : List Triple,
      (∀ t ∈ g1, t.pred = navipod_appname →
        t = Triple.mk s1 navipod_appname v ∨ t = Triple.mk s2 navipod_appname v) →
      (joinRows navipod_appname navipod_metric_name g1 g2).count v =
        g1.count (Triple.mk s1 navipod_appname v) *
            g2.count (Triple.mk s1 navipod_metric_name m1) +
          g1.count (Triple.mk s2 navipod_appname v) *
            g2.count (Triple.mk s2 navipod_metric_name m2) := by
  have hA12 : Triple.mk s1 navipod_appname v ≠ Triple.mk s2 navipod_appname v :=
    fun h => hs (congrArg Triple.subj h)
  intro g1
  induction g1 with
  | nil => intro _; simp [joinRows, concatMap]
  | cons t1 ts ih =>
    intro hApp
    have hts := fun u hu hp => hApp u (List.mem_cons_of_mem t1 hu) hp
    have hsplit : joinRows navipod_appname navipod_metric_name (t1 :: ts) g2 =
        g2.filterMap (rowStep navipod_appname navipod_metric_name t1) ++
          joinRows navipod_appname navipod_metric_name ts g2 := rfl
    rw [hsplit, List.count_append, ih hts]
    by_cases h1 : t1 = Triple.mk s1 navipod_appname v
    · subst h1
      rw [count_rowStep_app s1 s2 v m1 m2 hs hj1 g2 hMet,
        List.count_cons_self, List.count_cons_of_ne (Ne.symm hA12)]
      ring
    · by_cases h2 : t1 = Triple.mk s2 navipod_appname v
      · subst h2
        rw [count_rowStep_app s2 s1 v m2 m1 (Ne.symm hs) hj2 g2
            (fun t ht hp => (hMet t ht hp).symm),
          List.count_cons_of_ne hA12, List.count_cons_self]
        ring
      · have hpred : t1.pred ≠ navipod_appname := by
          intro hp
          rcases hApp t1 (List.mem_cons_self t1 ts) hp with h | h
          · exact h1 h
          · exact h2 h
        have hnil : g2.filterMap (rowStep navipod_appname navipod_metric_name t1) = [] :=
          List.filterMap_eq_nil_iff.mpr
            (fun t _ => rowStep_eq_none_left _ _ t1 t hpred)
        rw [hnil, List.count_cons_of_ne (Ne.symm h1), List.count_cons_of_ne (Ne.symm h2)]
        simp

/-- C8: `rdf_ttl_query.py` selects without `DISTINCT`, so when two
distinct subjects share one `navipod_appname` value and each carries a
jvm-matching `navipod_metric_name` (and no other appname/metric triples
exist), the shared value is printed once per matching row: it appears
exactly twice in the output. -/
theorem claim_C8 (g : RDFGraph) (s1 s2 v m1 m2 : String) (hs : s1 ≠ s2)
    (hnd : g.Nodup)
    (hA1 : Triple.mk s1 navipod_appname v ∈ g)
    (hM1 : Triple.mk s1 navipod_metric_name m1 ∈ g)
    (hA2 : Triple.mk s2 navipod_appname v ∈ g)
    (hM2 : Triple.mk s2 navipod_metric_name m2 ∈ g)
    (hj1 : jvmRegexCI m1 = true) (hj2 : jvmRegexCI m2 = true)
    (hApp : ∀ t ∈ g, t.pred = navipod_appname →
      t = Triple.mk s1 navipod_appname v ∨ t = Triple.mk s2 navipod_appname v)
    (hMet : ∀ t ∈ g, t.pred = navipod_metric_name →
      t = Triple.mk s1 navipod_metric_name m1 ∨ t = Triple.mk s2 navipod_metric_name m2) :
    (scriptLines rdf_ttl_query g).count v = 2 := by
  rw [scriptLines_ttl, ttlVals,
    count_joinRows_two s1 s2 v m1 m2 hs hj1 hj2 g hMet g hApp,
    List.count_eq_one_of_mem hnd hA1, List.count_eq_one_of_mem hnd hM1,
    List.count_eq_one_of_mem hnd hA2, List.count_eq_one_of_mem hnd hM2]

/-- Witness for C8: on the four-triple graph where subjects `sa` and `sb`
share appname `app` and both metrics match the jvm regex, the printed
value `app` appears exactly twice. -/
theorem claim_C8_witness :
    (scriptLines rdf_ttl_query
        [Triple.mk "sa" navipod_appname "app",
         Triple.mk "sa" navipod_metric_name "jvm.heap",
         Triple.mk "sb" navipod_appname "app",
         Triple.mk "sb" navipod_metric_name "JVM.load"]).count "app" = 2 :=
  claim_C8
    [Triple.mk "sa" navipod_appname "app",
     Triple.mk "sa" navipod_metric_name "jvm.heap",
     Triple.mk "sb" navipod_appname "app",
     Triple.mk "sb" navipod_metric_name "JVM.load"]
    "sa" "sb" "app" "jvm.heap" "JVM.load" (by decide) (by decide)
    (by decide) (by decide) (by decide) (by decide) (by decide) (by decide)
    (by decide) (by decide)

end Navipod
